import Mathlib

/-
Verification of the job-application reconciliation core of Career_Suite_AI_V6.

The definitions below are a shallow embedding of the relevant source code:
  * `MJM_Config.js`   — status constants, hierarchy table, stale-sweep config;
  * `MJM_main.js`     — `MJM_processJobApplicationEmails` (message selection,
                        identity resolution, record update/creation) and
                        `MJM_markStaleApplicationsAsRejected` (staleness sweep);
  * `MJM_ParsingUtils` (src/unnamed/part_006) — `MJM_parseBodyForStatus`.

Sheet rows are modelled by the `AppRecord` structure, one typed field per
column of the "Applications" sheet (columns 1..11 of MJM_Config.js); the three
date-valued columns are `Option Int` (milliseconds since epoch; `none` models
a blank or unparseable cell, `some t` a valid or successfully parsed date).
JavaScript strings are Lean `String`s; a `null`/absent extracted status is
modelled by the empty string, matching the `extractedStatus || DEFAULT`
coercions of the source.
-/

/-- JavaScript `String.prototype.trim`: strip leading and trailing
whitespace. Defined by structural recursion on the character list so that it
evaluates inside the kernel. -/
def MJM_trim (s : String) : String :=
  String.mk (((s.data.dropWhile Char.isWhitespace).reverse.dropWhile
    Char.isWhitespace).reverse)

/-- JavaScript `String.prototype.toLowerCase` (ASCII case folding, which
covers every string this code compares). -/
def MJM_toLower (s : String) : String :=
  String.mk (s.data.map Char.toLower)

/-- Global_Constants.gs: sentinel text for a field neither extractor resolved. -/
def MANUAL_REVIEW_NEEDED_TEXT : String := "N/A - Manual Review"

/-- MJM_Config.js line 48. -/
def MJM_APP_DEFAULT_STATUS : String := "Applied"

/-- MJM_Config.js line 49. -/
def MJM_APP_REJECTED_STATUS : String := "Rejected"

/-- MJM_Config.js line 50. -/
def MJM_APP_OFFER_STATUS : String := "Offer Received"

/-- MJM_Config.js line 51. -/
def MJM_APP_ACCEPTED_STATUS : String := "Offer Accepted"

/-- MJM_Config.js line 52. -/
def MJM_APP_INTERVIEW_STATUS : String := "Interview Scheduled"

/-- MJM_Config.js line 53. -/
def MJM_APP_ASSESSMENT_STATUS : String := "Assessment/Screening"

/-- MJM_Config.js line 54. -/
def MJM_APP_VIEWED_STATUS : String := "Application Viewed"

/-- MJM_Config.js lines 57-67: the status hierarchy object, as a partial map
from status text to rank (`none` models a key absent from the object). -/
def MJM_APP_STATUS_HIERARCHY (s : String) : Option Int :=
  if s = MANUAL_REVIEW_NEEDED_TEXT then some (-1)
  else if s = "Update/Other" then some 0
  else if s = MJM_APP_DEFAULT_STATUS then some 1
  else if s = MJM_APP_VIEWED_STATUS then some 2
  else if s = MJM_APP_ASSESSMENT_STATUS then some 3
  else if s = MJM_APP_INTERVIEW_STATUS then some 4
  else if s = MJM_APP_OFFER_STATUS then some 5
  else if s = MJM_APP_REJECTED_STATUS then some 5
  else if s = MJM_APP_ACCEPTED_STATUS then some 6
  else none

/-- `MJM_APP_STATUS_HIERARCHY[s] ?? 0` as used for the status merge
(MJM_main.js lines 696-697). -/
def MJM_rank0 (s : String) : Int := (MJM_APP_STATUS_HIERARCHY s).getD 0

/-- `MJM_APP_STATUS_HIERARCHY[s] ?? -2` as used for the peak-status update
(MJM_main.js line 704). -/
def MJM_rankPeak (s : String) : Int := (MJM_APP_STATUS_HIERARCHY s).getD (-2)

/-- MJM_Config.js line 72: statuses exempt from the stale check. -/
def MJM_STALE_FINAL_STATUSES_FOR_CHECK : List String :=
  [MJM_APP_REJECTED_STATUS, MJM_APP_ACCEPTED_STATUS, "Withdrawn"]

/-- MJM_Config.js line 71. -/
def MJM_STALE_WEEKS_THRESHOLD : Int := 7

/-- One row of the "Applications" sheet (columns 1..11, MJM_Config.js lines
32-42), typed per the values the reconciler itself writes. -/
structure AppRecord where
  processedTimestamp : Option Int
  emailDate : Option Int
  platform : String
  company : String
  title : String
  status : String
  peakStatus : String
  lastUpdateDate : Option Int
  subject : String
  link : String
  emailId : String
deriving DecidableEq

/-- One inbound message after field extraction (MJM_main.js lines 622-666):
`extractedStatus = ""` models the JavaScript `null`/empty status. -/
structure InboundEvent where
  messageId : String
  emailDate : Int
  subject : String
  platform : String
  extractedCompany : String
  extractedTitle : String
  extractedStatus : String
deriving DecidableEq

/-- MJM_main.js line 666: `extractedStatus || MJM_APP_DEFAULT_STATUS`. -/
def MJM_finalStatusToLog (ev : InboundEvent) : String :=
  if ev.extractedStatus = "" then MJM_APP_DEFAULT_STATUS else ev.extractedStatus

/-- MJM_main.js line 694: `String(cell || MJM_APP_DEFAULT_STATUS).trim()`. -/
def MJM_normalizedStatusInSheet (raw : String) : String :=
  MJM_trim (if raw = "" then MJM_APP_DEFAULT_STATUS else raw)

/-- MJM_main.js lines 694-699: the status-merge step of the record update.
When no branch fires the sheet cell keeps its raw stored value. -/
def MJM_mergeStatusCell (rawStatus finalStatusToLog : String) : String :=
  let statusInSheet := MJM_normalizedStatusInSheet rawStatus
  if statusInSheet ≠ MJM_APP_ACCEPTED_STATUS ∨ finalStatusToLog = MJM_APP_ACCEPTED_STATUS then
    if MJM_rank0 finalStatusToLog ≥ MJM_rank0 statusInSheet
        ∨ finalStatusToLog = MJM_APP_REJECTED_STATUS
        ∨ finalStatusToLog = MJM_APP_OFFER_STATUS
    then finalStatusToLog
    else rawStatus
  else rawStatus

/-- MJM_main.js lines 703 and 721: the set of statuses excluded from peak. -/
def MJM_excludedPeak (s : String) : Bool :=
  s = MJM_APP_REJECTED_STATUS ∨ s = MJM_APP_ACCEPTED_STATUS
    ∨ s = MANUAL_REVIEW_NEEDED_TEXT ∨ s = "Update/Other"

/-- MJM_main.js lines 702-706: the peak-status update, given the already
merged status cell `updatedStatusInSheet` and the stored peak cell. -/
def MJM_updatePeakCell (storedPeak updatedStatusInSheet : String) : String :=
  let peakStatus := if storedPeak = "" then MJM_APP_DEFAULT_STATUS else storedPeak
  if MJM_rankPeak updatedStatusInSheet > MJM_rankPeak peakStatus
      ∧ MJM_excludedPeak updatedStatusInSheet = false then
    updatedStatusInSheet
  else if peakStatus = MJM_APP_DEFAULT_STATUS
      ∧ MJM_excludedPeak updatedStatusInSheet = false
      ∧ MJM_rank0 updatedStatusInSheet > MJM_rank0 MJM_APP_DEFAULT_STATUS then
    updatedStatusInSheet
  else
    peakStatus

/-- MJM_main.js lines 684-687: a date cell is replaced when blank/invalid or
when the event date is strictly newer. -/
def MJM_newerDate (eventTime : Int) : Option Int → Option Int
  | none => some eventTime
  | some t => if eventTime > t then some eventTime else some t

/-- MJM_main.js line 633. -/
def MJM_permalink (messageId : String) : String :=
  "https://mail.google.com/mail/u/0/#inbox/" ++ messageId

/-- MJM_main.js lines 691-692: overwrite company/title when the extracted
value is resolved and the stored value is the sentinel or differs from it
case-insensitively. -/
def MJM_mergeNameCell (storedValue extractedValue : String) : String :=
  if extractedValue ≠ MANUAL_REVIEW_NEEDED_TEXT
      ∧ (storedValue = MANUAL_REVIEW_NEEDED_TEXT
          ∨ MJM_toLower storedValue ≠ MJM_toLower extractedValue) then
    extractedValue
  else storedValue

/-- MJM_main.js lines 680-712: update of an existing row by one reconciled
event (`now` is the wall-clock processing time, `new Date()`). -/
def MJM_updateExistingRow (now : Int) (ev : InboundEvent) (row : AppRecord) : AppRecord :=
  let finalStatusToLog := MJM_finalStatusToLog ev
  let updatedStatusInSheet := MJM_mergeStatusCell row.status finalStatusToLog
  { processedTimestamp := some now
    emailDate := MJM_newerDate ev.emailDate row.emailDate
    platform := ev.platform
    company := MJM_mergeNameCell row.company ev.extractedCompany
    title := MJM_mergeNameCell row.title ev.extractedTitle
    status := updatedStatusInSheet
    peakStatus := MJM_updatePeakCell row.peakStatus updatedStatusInSheet
    lastUpdateDate := MJM_newerDate ev.emailDate row.lastUpdateDate
    subject := ev.subject
    link := MJM_permalink ev.messageId
    emailId := ev.messageId }

/-- MJM_main.js lines 713-731: creation of a new row from an unmatched event. -/
def MJM_createRecord (now : Int) (ev : InboundEvent) : AppRecord :=
  let finalStatusToLog := MJM_finalStatusToLog ev
  { processedTimestamp := some now
    emailDate := some ev.emailDate
    platform := ev.platform
    company := ev.extractedCompany
    title := ev.extractedTitle
    status := finalStatusToLog
    peakStatus := if MJM_excludedPeak finalStatusToLog = false
                  then finalStatusToLog else MJM_APP_DEFAULT_STATUS
    lastUpdateDate := some ev.emailDate
    subject := ev.subject
    link := MJM_permalink ev.messageId
    emailId := ev.messageId }

/-- One reconciliation step of an already-existing record: the processing
time and the event, as consumed by `MJM_updateExistingRow`. -/
def MJM_reconcileStep (row : AppRecord) (p : Int × InboundEvent) : AppRecord :=
  MJM_updateExistingRow p.1 p.2 row

-- Projection helpers for the record update.

theorem MJM_updateExistingRow_status (now : Int) (ev : InboundEvent) (row : AppRecord) :
    (MJM_updateExistingRow now ev row).status
      = MJM_mergeStatusCell row.status (MJM_finalStatusToLog ev) := rfl

theorem MJM_updateExistingRow_peak (now : Int) (ev : InboundEvent) (row : AppRecord) :
    (MJM_updateExistingRow now ev row).peakStatus
      = MJM_updatePeakCell row.peakStatus
          (MJM_mergeStatusCell row.status (MJM_finalStatusToLog ev)) := rfl

theorem MJM_updateExistingRow_company (now : Int) (ev : InboundEvent) (row : AppRecord) :
    (MJM_updateExistingRow now ev row).company
      = MJM_mergeNameCell row.company ev.extractedCompany := rfl

theorem MJM_updateExistingRow_title (now : Int) (ev : InboundEvent) (row : AppRecord) :
    (MJM_updateExistingRow now ev row).title
      = MJM_mergeNameCell row.title ev.extractedTitle := rfl

/-- Claim C1: for a reconciliation into an existing record whose stored
currentStatus (a whitespace-trimmed, nonempty status text) is not "Offer Accepted", the
currentStatus cell is set to the event status exactly when the event status
ranks at least as high as the stored status, or is "Rejected", or is
"Offer Received"; otherwise it is unchanged. -/
theorem claim1_statusMerge (now : Int) (ev : InboundEvent) (row : AppRecord)
    (hTrim : MJM_trim row.status = row.status) (hNe : row.status ≠ "")
    (hAcc : row.status ≠ MJM_APP_ACCEPTED_STATUS) :
    ((MJM_updateExistingRow now ev row).status = MJM_finalStatusToLog ev
        ↔ (MJM_rank0 (MJM_finalStatusToLog ev) ≥ MJM_rank0 row.status
            ∨ MJM_finalStatusToLog ev = MJM_APP_REJECTED_STATUS
            ∨ MJM_finalStatusToLog ev = MJM_APP_OFFER_STATUS))
    ∧ (¬ (MJM_rank0 (MJM_finalStatusToLog ev) ≥ MJM_rank0 row.status
            ∨ MJM_finalStatusToLog ev = MJM_APP_REJECTED_STATUS
            ∨ MJM_finalStatusToLog ev = MJM_APP_OFFER_STATUS)
          → (MJM_updateExistingRow now ev row).status = row.status) := by
  have hNorm : MJM_normalizedStatusInSheet row.status = row.status := by
    unfold MJM_normalizedStatusInSheet
    rw [if_neg hNe, hTrim]
  rw [MJM_updateExistingRow_status]
  unfold MJM_mergeStatusCell
  rw [hNorm, if_pos (Or.inl hAcc)]
  by_cases hCond : MJM_rank0 (MJM_finalStatusToLog ev) ≥ MJM_rank0 row.status
      ∨ MJM_finalStatusToLog ev = MJM_APP_REJECTED_STATUS
      ∨ MJM_finalStatusToLog ev = MJM_APP_OFFER_STATUS
  · rw [if_pos hCond]
    exact ⟨⟨fun _ => hCond, fun _ => rfl⟩, fun hn => absurd hCond hn⟩
  · rw [if_neg hCond]
    refine ⟨⟨fun hEq => ?_, fun h => absurd h hCond⟩, fun _ => rfl⟩
    exact absurd (Or.inl (hEq ▸ le_refl _)) hCond

/-- Witness for C1 at a concrete input: stored status "Interview Scheduled"
(rank 4), event status "Applied" (rank 1, neither Rejected nor Offer), hence
the stored status is kept. -/
theorem claim1_statusMerge_witness :
    (MJM_updateExistingRow 5
      { messageId := "m2", emailDate := 10, subject := "s", platform := "Other",
        extractedCompany := "Acme", extractedTitle := "Engineer",
        extractedStatus := "Applied" }
      { processedTimestamp := some 1, emailDate := some 1, platform := "Other",
        company := "Acme", title := "Engineer",
        status := "Interview Scheduled", peakStatus := "Interview Scheduled",
        lastUpdateDate := some 1, subject := "s0", link := "l0",
        emailId := "m1" }).status = "Interview Scheduled" := by
  exact (claim1_statusMerge 5 _ _ (by decide) (by decide) (by decide)).2 (by decide)

/-- Single-step form of the "Offer Accepted is absorbing" invariant. -/
theorem MJM_accepted_absorbing_step (now : Int) (ev : InboundEvent) (row : AppRecord)
    (h : row.status = MJM_APP_ACCEPTED_STATUS) :
    (MJM_updateExistingRow now ev row).status = MJM_APP_ACCEPTED_STATUS := by
  rw [MJM_updateExistingRow_status]
  unfold MJM_mergeStatusCell
  rw [h]
  have hNorm : MJM_normalizedStatusInSheet MJM_APP_ACCEPTED_STATUS
      = MJM_APP_ACCEPTED_STATUS := by decide
  rw [hNorm]
  by_cases hA : MJM_finalStatusToLog ev = MJM_APP_ACCEPTED_STATUS
  · rw [if_pos (Or.inr hA), if_pos (Or.inl (hA ▸ le_refl _))]
    exact hA
  · rw [if_neg ?_]
    intro hOr
    rcases hOr with hL | hR
    · exact hL rfl
    · exact hA hR

/-- Claim C2: once a record's currentStatus is "Offer Accepted", no sequence
of subsequently reconciled events (of any statuses) changes it: after every
such sequence the currentStatus is still "Offer Accepted". -/
theorem claim2_acceptedAbsorbing (steps : List (Int × InboundEvent)) (row : AppRecord)
    (h : row.status = MJM_APP_ACCEPTED_STATUS) :
    (steps.foldl MJM_reconcileStep row).status = MJM_APP_ACCEPTED_STATUS := by
  induction steps generalizing row with
  | nil => exact h
  | cons p rest ih =>
      exact ih (MJM_reconcileStep row p) (MJM_accepted_absorbing_step p.1 p.2 row h)

/-- Witness for C2 at a concrete input: an accepted record hit by a
"Rejected" event and then an "Applied" event stays "Offer Accepted". -/
theorem claim2_acceptedAbsorbing_witness :
    (([(3, { messageId := "m2", emailDate := 12, subject := "s2", platform := "Other",
              extractedCompany := "Acme", extractedTitle := "Engineer",
              extractedStatus := "Rejected" }),
       (4, { messageId := "m3", emailDate := 13, subject := "s3", platform := "Other",
              extractedCompany := "Acme", extractedTitle := "Engineer",
              extractedStatus := "Applied" })] : List (Int × InboundEvent)).foldl
        MJM_reconcileStep
        { processedTimestamp := some 1, emailDate := some 1, platform := "Other",
          company := "Acme", title := "Engineer",
          status := "Offer Accepted", peakStatus := "Interview Scheduled",
          lastUpdateDate := some 1, subject := "s0", link := "l0",
          emailId := "m1" }).status = "Offer Accepted" := by
  exact claim2_acceptedAbsorbing _ _ (by decide)

/-- Claim C10: "Rejected" and "Offer Received" share hierarchy rank 5, and
"Rejected" — although in the terminal set of the staleness sweep — is not
absorbing: an event with status "Offer Received" or "Offer Accepted"
overwrites a stored "Rejected" currentStatus. -/
theorem claim10_rejectedNotAbsorbing :
    MJM_APP_STATUS_HIERARCHY MJM_APP_REJECTED_STATUS
        = MJM_APP_STATUS_HIERARCHY MJM_APP_OFFER_STATUS
    ∧ MJM_STALE_FINAL_STATUSES_FOR_CHECK.contains MJM_APP_REJECTED_STATUS = true
    ∧ (∀ (now : Int) (ev : InboundEvent) (row : AppRecord),
        row.status = MJM_APP_REJECTED_STATUS
        → MJM_finalStatusToLog ev = MJM_APP_OFFER_STATUS
        → (MJM_updateExistingRow now ev row).status = MJM_APP_OFFER_STATUS)
    ∧ (∀ (now : Int) (ev : InboundEvent) (row : AppRecord),
        row.status = MJM_APP_REJECTED_STATUS
        → MJM_finalStatusToLog ev = MJM_APP_ACCEPTED_STATUS
        → (MJM_updateExistingRow now ev row).status = MJM_APP_ACCEPTED_STATUS) := by
  refine ⟨by decide, by decide, ?_, ?_⟩
  · intro now ev row hR hF
    rw [MJM_updateExistingRow_status]
    unfold MJM_mergeStatusCell
    rw [hR, hF]
    decide
  · intro now ev row hR hF
    rw [MJM_updateExistingRow_status]
    unfold MJM_mergeStatusCell
    rw [hR, hF]
    decide

-- Rank facts for the hierarchy table.

theorem MJM_hierarchy_ge (s : String) (k : Int)
    (h : MJM_APP_STATUS_HIERARCHY s = some k) : -1 ≤ k := by
  unfold MJM_APP_STATUS_HIERARCHY at h
  split_ifs at h <;> (injection h with h; omega)

theorem MJM_rankPeak_ge (s : String) : -2 ≤ MJM_rankPeak s := by
  unfold MJM_rankPeak
  cases h : MJM_APP_STATUS_HIERARCHY s with
  | none => exact le_refl _
  | some k =>
      have := MJM_hierarchy_ge s k h
      simp only [Option.getD_some]
      omega

theorem MJM_rankPeak_eq_rank0_of_gt_one (s : String) (h : 1 < MJM_rank0 s) :
    MJM_rankPeak s = MJM_rank0 s := by
  unfold MJM_rank0 at h
  unfold MJM_rank0 MJM_rankPeak
  cases hh : MJM_APP_STATUS_HIERARCHY s with
  | none => rw [hh] at h; simp at h
  | some k => simp [Option.getD_some]

/-- The peak-status cell update never lowers the peak rank. -/
theorem MJM_updatePeakCell_mono (storedPeak u : String) :
    MJM_rankPeak storedPeak ≤ MJM_rankPeak (MJM_updatePeakCell storedPeak u) := by
  by_cases h0 : storedPeak = ""
  · have hp : (if storedPeak = "" then MJM_APP_DEFAULT_STATUS else storedPeak)
        = MJM_APP_DEFAULT_STATUS := if_pos h0
    have h2 : MJM_rankPeak "" = -2 := by decide
    simp only [MJM_updatePeakCell]
    rw [hp, h0, h2]
    split
    · exact MJM_rankPeak_ge u
    · split
      · exact MJM_rankPeak_ge u
      · decide
  · have hp : (if storedPeak = "" then MJM_APP_DEFAULT_STATUS else storedPeak)
        = storedPeak := if_neg h0
    simp only [MJM_updatePeakCell]
    rw [hp]
    split
    · next hc => exact le_of_lt hc.1
    · split
      · next hc =>
          have h1 : MJM_rank0 MJM_APP_DEFAULT_STATUS = 1 := by decide
          have hgt : 1 < MJM_rank0 u := by rw [← h1]; exact hc.2.2
          have he : MJM_rankPeak u = MJM_rank0 u :=
            MJM_rankPeak_eq_rank0_of_gt_one u hgt
          have hd : MJM_rankPeak MJM_APP_DEFAULT_STATUS = 1 := by decide
          rw [hc.1, he, hd]
          omega
      · exact le_refl _

/-- The peak-status cell update never writes an excluded status. -/
theorem MJM_updatePeakCell_excl (storedPeak u : String)
    (h : MJM_excludedPeak storedPeak = false) :
    MJM_excludedPeak (MJM_updatePeakCell storedPeak u) = false := by
  by_cases h0 : storedPeak = ""
  · have hp : (if storedPeak = "" then MJM_APP_DEFAULT_STATUS else storedPeak)
        = MJM_APP_DEFAULT_STATUS := if_pos h0
    simp only [MJM_updatePeakCell]
    rw [hp]
    split
    · next hc => exact hc.2
    · split
      · next hc => exact hc.2.1
      · decide
  · have hp : (if storedPeak = "" then MJM_APP_DEFAULT_STATUS else storedPeak)
        = storedPeak := if_neg h0
    simp only [MJM_updatePeakCell]
    rw [hp]
    split
    · next hc => exact hc.2
    · split
      · next hc => exact hc.2.1
      · exact h

theorem MJM_createRecord_peak_excl (now : Int) (ev : InboundEvent) :
    MJM_excludedPeak (MJM_createRecord now ev).peakStatus = false := by
  have hrfl : (MJM_createRecord now ev).peakStatus
      = if MJM_excludedPeak (MJM_finalStatusToLog ev) = false
        then MJM_finalStatusToLog ev else MJM_APP_DEFAULT_STATUS := rfl
  rw [hrfl]
  split
  · next hc => exact hc
  · decide

theorem MJM_reconcileStep_peak_mono (row : AppRecord) (p : Int × InboundEvent) :
    MJM_rankPeak row.peakStatus ≤ MJM_rankPeak (MJM_reconcileStep row p).peakStatus := by
  have := MJM_updatePeakCell_mono row.peakStatus
    (MJM_mergeStatusCell row.status (MJM_finalStatusToLog p.2))
  exact this

theorem MJM_reconcileStep_peak_excl (row : AppRecord) (p : Int × InboundEvent)
    (h : MJM_excludedPeak row.peakStatus = false) :
    MJM_excludedPeak (MJM_reconcileStep row p).peakStatus = false := by
  exact MJM_updatePeakCell_excl row.peakStatus
    (MJM_mergeStatusCell row.status (MJM_finalStatusToLog p.2)) h

-- Generic trace lemma for folds: a step-preserved relation and invariant
-- hold along the whole `scanl` trace.

theorem MJM_scanl_head {α β : Type} (f : α → β → α) (a : α) (l : List β) :
    (List.scanl f a l).head? = some a := by
  cases l <;> rfl

theorem MJM_scanl_chain_inv {α β : Type} (f : α → β → α) (R : α → α → Prop)
    (inv : α → Prop) (hstep : ∀ a b, R a (f a b))
    (hinv : ∀ a b, inv a → inv (f a b)) :
    ∀ (l : List β) (a : α), inv a →
      List.Chain' R (List.scanl f a l) ∧ ∀ x ∈ List.scanl f a l, inv x := by
  intro l
  induction l with
  | nil =>
      intro a ha
      constructor
      · exact List.chain'_singleton a
      · intro x hx
        rw [List.scanl_nil, List.mem_singleton] at hx
        exact hx ▸ ha
  | cons b rest ih =>
      intro a ha
      obtain ⟨hc, hm⟩ := ih (f a b) (hinv a b ha)
      rw [List.scanl_cons, List.singleton_append]
      constructor
      · refine List.chain'_cons'.mpr ⟨?_, hc⟩
        intro y hy
        rw [MJM_scanl_head] at hy
        cases hy
        exact hstep a b
      · intro x hx
        rcases List.mem_cons.mp hx with h | h
        · exact h ▸ ha
        · exact hm x h

/-- Claim C3: along any reconciliation trace of one record — created from a
first event, then updated by any sequence of events — the hierarchy rank of
peakStatus (rank `?? -2`, as the code compares peaks) never decreases
between consecutive states, and peakStatus is never an excluded status
(Rejected, Offer Accepted, the manual-review sentinel, or "Update/Other"). -/
theorem claim3_peakMonotone (now0 : Int) (ev0 : InboundEvent)
    (steps : List (Int × InboundEvent)) :
    List.Chain' (fun a b => MJM_rankPeak a.peakStatus ≤ MJM_rankPeak b.peakStatus)
      (List.scanl MJM_reconcileStep (MJM_createRecord now0 ev0) steps)
    ∧ ∀ r ∈ List.scanl MJM_reconcileStep (MJM_createRecord now0 ev0) steps,
        MJM_excludedPeak r.peakStatus = false := by
  exact MJM_scanl_chain_inv MJM_reconcileStep
    (fun a b => MJM_rankPeak a.peakStatus ≤ MJM_rankPeak b.peakStatus)
    (fun r => MJM_excludedPeak r.peakStatus = false)
    MJM_reconcileStep_peak_mono
    MJM_reconcileStep_peak_excl
    steps (MJM_createRecord now0 ev0)
    (MJM_createRecord_peak_excl now0 ev0)

/-- Witness for C10 at a concrete input: a rejected record hit by an
"Offer Received" event moves to "Offer Received". -/
theorem claim10_rejectedNotAbsorbing_witness :
    (MJM_updateExistingRow 7
      { messageId := "m2", emailDate := 20, subject := "s", platform := "Other",
        extractedCompany := "Acme", extractedTitle := "Engineer",
        extractedStatus := "Offer Received" }
      { processedTimestamp := some 1, emailDate := some 1, platform := "Other",
        company := "Acme", title := "Engineer",
        status := "Rejected", peakStatus := "Applied",
        lastUpdateDate := some 1, subject := "s0", link := "l0",
        emailId := "m1" }).status = "Offer Received" := by
  exact claim10_rejectedNotAbsorbing.2.2.1 7 _ _ (by decide) (by decide)

-- ---------------------------------------------------------------------------
-- Staleness sweep (MJM_main.js lines 762-852).

/-- MJM_main.js lines 789-791: the stale cutoff, `MJM_STALE_WEEKS_THRESHOLD`
weeks of 7 days before the sweep time (times in milliseconds). -/
def MJM_staleThresholdTime (now : Int) : Int :=
  now - MJM_STALE_WEEKS_THRESHOLD * 7 * 86400000

/-- MJM_main.js lines 798-830: a row is marked stale when its last-update
cell holds a valid (or parseable) date, its trimmed status is neither in the
terminal set nor empty nor the manual-review sentinel, and the last-update
time is strictly before the threshold. -/
def MJM_rowIsStale (staleDateThreshold : Int) (row : AppRecord) : Bool :=
  match row.lastUpdateDate with
  | none => false
  | some t =>
      let currentAppStatus := MJM_trim row.status
      if currentAppStatus ∈ MJM_STALE_FINAL_STATUSES_FOR_CHECK
          ∨ currentAppStatus = "" ∨ currentAppStatus = MANUAL_REVIEW_NEEDED_TEXT then
        false
      else if t ≥ staleDateThreshold then false
      else true

/-- MJM_main.js lines 832-837: the in-memory mutation of one stale row —
status, last-update date and processed timestamp. -/
def MJM_markStaleRow (now : Int) (row : AppRecord) : AppRecord :=
  if MJM_rowIsStale (MJM_staleThresholdTime now) row then
    { row with status := MJM_APP_REJECTED_STATUS,
               lastUpdateDate := some now,
               processedTimestamp := some now }
  else row

/-- MJM_main.js lines 798-850: the whole sweep over the data rows; the
boolean records whether `setValues` was invoked (lines 841-843: only when at
least one row was marked stale). -/
def MJM_markStaleApplicationsAsRejected (now : Int) (rows : List AppRecord) :
    List AppRecord × Bool :=
  let updatedStaleApplicationsCount :=
    rows.countP (fun r => MJM_rowIsStale (MJM_staleThresholdTime now) r)
  if 0 < updatedStaleApplicationsCount
  then (rows.map (MJM_markStaleRow now), true)
  else (rows, false)

theorem MJM_map_id_of_fix (f : AppRecord → AppRecord) (l : List AppRecord)
    (h : ∀ x ∈ l, f x = x) : l.map f = l := by
  induction l with
  | nil => rfl
  | cons a t ih =>
      simp only [List.map_cons]
      rw [h a (List.mem_cons_self a t), ih (fun x hx => h x (List.mem_cons_of_mem a hx))]

/-- The sheet written back by the sweep is always the per-row image of
`MJM_markStaleRow` (when nothing is stale that image is the identity). -/
theorem MJM_sweep_fst_eq_map (now : Int) (rows : List AppRecord) :
    (MJM_markStaleApplicationsAsRejected now rows).1
      = rows.map (MJM_markStaleRow now) := by
  simp only [MJM_markStaleApplicationsAsRejected]
  split
  · rfl
  · next hc =>
      have hz : rows.countP (fun r => MJM_rowIsStale (MJM_staleThresholdTime now) r) = 0 := by
        omega
      have hall := List.countP_eq_zero.mp hz
      have : rows.map (MJM_markStaleRow now) = rows := by
        refine MJM_map_id_of_fix _ _ (fun x hx => ?_)
        have hfalse : MJM_rowIsStale (MJM_staleThresholdTime now) x = false := by
          have := hall x hx
          simpa using this
        unfold MJM_markStaleRow
        rw [hfalse]
        simp
      rw [this]

/-- Claim C7: the sweep rejects exactly the stale rows.  The first conjunct
characterises staleness as the claim states it; the remaining conjuncts say
every row of the written sheet is the image of `MJM_markStaleRow`, which
sets status "Rejected" and stamps the sweep time on stale rows and leaves
all other rows exactly unchanged. -/
theorem claim7_staleSweep (now : Int) (rows : List AppRecord) (i : Nat)
    (h : i < rows.length) :
    (MJM_rowIsStale (MJM_staleThresholdTime now) (rows.get ⟨i, h⟩) = true
      ↔ (MJM_trim (rows.get ⟨i, h⟩).status ∉ MJM_STALE_FINAL_STATUSES_FOR_CHECK
          ∧ MJM_trim (rows.get ⟨i, h⟩).status ≠ ""
          ∧ MJM_trim (rows.get ⟨i, h⟩).status ≠ MANUAL_REVIEW_NEEDED_TEXT
          ∧ ∃ t, (rows.get ⟨i, h⟩).lastUpdateDate = some t
              ∧ t < MJM_staleThresholdTime now))
    ∧ (MJM_markStaleApplicationsAsRejected now rows).1.get? i
        = some (MJM_markStaleRow now (rows.get ⟨i, h⟩))
    ∧ (MJM_rowIsStale (MJM_staleThresholdTime now) (rows.get ⟨i, h⟩) = true
        → (MJM_markStaleRow now (rows.get ⟨i, h⟩)).status = MJM_APP_REJECTED_STATUS
          ∧ (MJM_markStaleRow now (rows.get ⟨i, h⟩)).lastUpdateDate = some now)
    ∧ (MJM_rowIsStale (MJM_staleThresholdTime now) (rows.get ⟨i, h⟩) = false
        → MJM_markStaleRow now (rows.get ⟨i, h⟩) = rows.get ⟨i, h⟩) := by
  refine ⟨?_, ?_, ?_, ?_⟩
  · unfold MJM_rowIsStale
    cases hd : (rows.get ⟨i, h⟩).lastUpdateDate with
    | none => simp
    | some t =>
        simp only []
        split
        · next hskip =>
            refine iff_of_false Bool.false_ne_true ?_
            intro hcl
            rcases hskip with hs | hs | hs
            · exact hcl.1 hs
            · exact hcl.2.1 hs
            · exact hcl.2.2.1 hs
        · next hskip =>
            push_neg at hskip
            split
            · next hge =>
                refine iff_of_false Bool.false_ne_true ?_
                intro hcl
                obtain ⟨t2, ht2, hlt⟩ := hcl.2.2.2
                injection ht2 with ht2
                omega
            · next hge =>
                refine iff_of_true rfl ?_
                refine ⟨hskip.1, hskip.2.1, hskip.2.2, t, rfl, by omega⟩
  · rw [MJM_sweep_fst_eq_map, List.get?_map, List.get?_eq_get h]
    rfl
  · intro hstale
    unfold MJM_markStaleRow
    rw [hstale]
    exact ⟨rfl, rfl⟩
  · intro hstale
    unfold MJM_markStaleRow
    rw [hstale]
    simp

/-- Witness for C7 at the concrete Scenario C input: a record with status
"Applied" last updated 8 weeks (in milliseconds) before the sweep time, with
a 7-week threshold, is marked stale and set to "Rejected". -/
theorem claim7_staleSweep_witness :
    (MJM_markStaleApplicationsAsRejected 4838400000
        [{ processedTimestamp := some 0, emailDate := some 0, platform := "Other",
           company := "Acme", title := "Engineer", status := "Applied",
           peakStatus := "Applied", lastUpdateDate := some 0, subject := "s",
           link := "l", emailId := "m1" }]).1.get? 0
      = some (MJM_markStaleRow 4838400000
          { processedTimestamp := some 0, emailDate := some 0, platform := "Other",
            company := "Acme", title := "Engineer", status := "Applied",
            peakStatus := "Applied", lastUpdateDate := some 0, subject := "s",
            link := "l", emailId := "m1" })
    ∧ (MJM_markStaleRow 4838400000
          { processedTimestamp := some 0, emailDate := some 0, platform := "Other",
            company := "Acme", title := "Engineer", status := "Applied",
            peakStatus := "Applied", lastUpdateDate := some 0, subject := "s",
            link := "l", emailId := "m1" }).status = MJM_APP_REJECTED_STATUS := by
  have hcl := claim7_staleSweep 4838400000
    [{ processedTimestamp := some 0, emailDate := some 0, platform := "Other",
       company := "Acme", title := "Engineer", status := "Applied",
       peakStatus := "Applied", lastUpdateDate := some 0, subject := "s",
       link := "l", emailId := "m1" }] 0 (by decide)
  exact ⟨hcl.2.1, (hcl.2.2.1 (by decide)).1⟩

/-- Claim C9: frame property of the sweep.  When no row is stale the sweep
performs no write at all and returns the rows untouched; otherwise each
stale row changes in exactly the three fields status, last-update date and
processed timestamp, and every non-stale row is returned exactly as read. -/
theorem claim9_sweepFrame (now : Int) (rows : List AppRecord) :
    ((∀ r ∈ rows, MJM_rowIsStale (MJM_staleThresholdTime now) r = false)
      → MJM_markStaleApplicationsAsRejected now rows = (rows, false))
    ∧ ∀ i, (h : i < rows.length) →
        (MJM_rowIsStale (MJM_staleThresholdTime now) (rows.get ⟨i, h⟩) = true
          → (MJM_markStaleApplicationsAsRejected now rows).1.get? i
              = some { rows.get ⟨i, h⟩ with
                        status := MJM_APP_REJECTED_STATUS,
                        lastUpdateDate := some now,
                        processedTimestamp := some now })
        ∧ (MJM_rowIsStale (MJM_staleThresholdTime now) (rows.get ⟨i, h⟩) = false
          → (MJM_markStaleApplicationsAsRejected now rows).1.get? i
              = some (rows.get ⟨i, h⟩)) := by
  constructor
  · intro hall
    have hz : rows.countP (fun r => MJM_rowIsStale (MJM_staleThresholdTime now) r) = 0 := by
      refine List.countP_eq_zero.mpr (fun a ha => ?_)
      simp [hall a ha]
    unfold MJM_markStaleApplicationsAsRejected
    rw [hz]
    simp
  · intro i h
    constructor
    · intro hstale
      rw [MJM_sweep_fst_eq_map, List.get?_map, List.get?_eq_get h]
      simp only [Option.map_some']
      unfold MJM_markStaleRow
      rw [if_pos hstale]
    · intro hstale
      rw [MJM_sweep_fst_eq_map, List.get?_map, List.get?_eq_get h]
      simp only [Option.map_some']
      unfold MJM_markStaleRow
      have hne : ¬ (MJM_rowIsStale (MJM_staleThresholdTime now) (rows.get ⟨i, h⟩) = true) := by
        rw [hstale]
        exact Bool.false_ne_true
      rw [if_neg hne]

/-- Witness for C9 at concrete inputs: a sweep over one fresh row writes
nothing, and a sweep over one stale row rewrites exactly the three fields. -/
theorem claim9_sweepFrame_witness :
    MJM_markStaleApplicationsAsRejected 100
        [{ processedTimestamp := some 0, emailDate := some 0, platform := "Other",
           company := "Acme", title := "Engineer", status := "Applied",
           peakStatus := "Applied", lastUpdateDate := some 50, subject := "s",
           link := "l", emailId := "m1" }]
      = ([{ processedTimestamp := some 0, emailDate := some 0, platform := "Other",
            company := "Acme", title := "Engineer", status := "Applied",
            peakStatus := "Applied", lastUpdateDate := some 50, subject := "s",
            link := "l", emailId := "m1" }], false)
    ∧ (MJM_markStaleApplicationsAsRejected 4838400000
        [{ processedTimestamp := some 0, emailDate := some 0, platform := "Other",
           company := "Acme", title := "Engineer", status := "Applied",
           peakStatus := "Applied", lastUpdateDate := some 0, subject := "s",
           link := "l", emailId := "m1" }]).1.get? 0
      = some { processedTimestamp := some 4838400000, emailDate := some 0,
               platform := "Other", company := "Acme", title := "Engineer",
               status := "Rejected", peakStatus := "Applied",
               lastUpdateDate := some 4838400000, subject := "s",
               link := "l", emailId := "m1" } := by
  constructor
  · exact (claim9_sweepFrame 100 _).1 (by decide)
  · exact ((claim9_sweepFrame 4838400000 _).2 0 (by decide)).1 (by decide)

-- ---------------------------------------------------------------------------
-- Message selection / idempotency guard (MJM_main.js lines 553-605).

/-- MJM_main.js line 573: a preloaded row enters the company cache only when
its trimmed, lowercased company is nonempty, not the manual-review sentinel
and not "n/a". -/
def MJM_cacheEligible (row : AppRecord) : Bool :=
  let companyLCKey := MJM_toLower (MJM_trim row.company)
  companyLCKey != ""
    && companyLCKey != MJM_toLower MANUAL_REVIEW_NEEDED_TEXT
    && companyLCKey != "n/a"

/-- MJM_main.js lines 593-594: the set of email ids of cached rows (the
preload keeps the trimmed id, line 569, and only nonempty ids enter the
set). -/
def MJM_emailIdsAlreadyInSheet (rows : List AppRecord) : List String :=
  ((rows.filter MJM_cacheEligible).map (fun r => MJM_trim r.emailId)).filter
    (fun s => s != "")

/-- MJM_main.js lines 596-605: scan of the pulled messages; a message id is
kept when it is neither in the sheet-id set nor already seen this run, and
every kept id immediately joins the seen set. -/
def MJM_selectGo (sheetIds : List String) : List String → List String → List String
  | _, [] => []
  | seen, m :: rest =>
      if m ∈ sheetIds ∨ m ∈ seen then MJM_selectGo sheetIds seen rest
      else m :: MJM_selectGo sheetIds (m :: seen) rest

/-- The new-message list of one run, from the persisted rows and the pulled
message ids (in scan order). -/
def MJM_selectNewMessages (rows : List AppRecord) (msgIds : List String) : List String :=
  MJM_selectGo (MJM_emailIdsAlreadyInSheet rows) [] msgIds

theorem MJM_selectGo_cons (sheetIds seen : List String) (m : String)
    (rest : List String) :
    MJM_selectGo sheetIds seen (m :: rest)
      = if m ∈ sheetIds ∨ m ∈ seen then MJM_selectGo sheetIds seen rest
        else m :: MJM_selectGo sheetIds (m :: seen) rest := rfl

theorem MJM_mem_selectGo (sheetIds : List String) (msgs : List String) :
    ∀ (seen : List String) (x : String),
      x ∈ MJM_selectGo sheetIds seen msgs
        ↔ x ∈ msgs ∧ x ∉ sheetIds ∧ x ∉ seen := by
  induction msgs with
  | nil => intro seen x; simp [MJM_selectGo]
  | cons m rest ih =>
      intro seen x
      by_cases hc : m ∈ sheetIds ∨ m ∈ seen
      · rw [MJM_selectGo_cons, if_pos hc]
        rw [ih seen x]
        constructor
        · rintro ⟨hr, hs, hn⟩
          exact ⟨List.mem_cons_of_mem m hr, hs, hn⟩
        · rintro ⟨hm, hs, hn⟩
          rcases List.mem_cons.mp hm with he | hr
          · subst he
            rcases hc with h | h
            · exact absurd h hs
            · exact absurd h hn
          · exact ⟨hr, hs, hn⟩
      · rw [MJM_selectGo_cons, if_neg hc]
        push_neg at hc
        constructor
        · intro hx
          rcases List.mem_cons.mp hx with he | hr
          · subst he
            exact ⟨List.mem_cons_self x rest, hc.1, hc.2⟩
          · obtain ⟨h1, h2, h3⟩ := (ih (m :: seen) x).mp hr
            refine ⟨List.mem_cons_of_mem m h1, h2, fun hs => h3 (List.mem_cons_of_mem m hs)⟩
        · rintro ⟨hm, hs, hn⟩
          by_cases he : x = m
          · exact he ▸ List.mem_cons_self m _
          · rcases List.mem_cons.mp hm with h | hr
            · exact absurd h he
            · refine List.mem_cons_of_mem m ((ih (m :: seen) x).mpr ⟨hr, hs, ?_⟩)
              intro hxm
              rcases List.mem_cons.mp hxm with h | h
              · exact he h
              · exact hn h

theorem MJM_count_selectGo (sheetIds : List String) (msgs : List String) :
    ∀ (seen : List String) (x : String),
      (MJM_selectGo sheetIds seen msgs).count x ≤ 1 := by
  induction msgs with
  | nil => intro seen x; simp [MJM_selectGo]
  | cons m rest ih =>
      intro seen x
      by_cases hc : m ∈ sheetIds ∨ m ∈ seen
      · rw [MJM_selectGo_cons, if_pos hc]
        exact ih seen x
      · rw [MJM_selectGo_cons, if_neg hc]
        by_cases he : x = m
        · subst he
          rw [List.count_cons_self]
          have hnm : x ∉ MJM_selectGo sheetIds (x :: seen) rest := by
            intro hmem
            exact ((MJM_mem_selectGo sheetIds rest (x :: seen) x).mp hmem).2.2
              (List.mem_cons_self x seen)
          rw [List.count_eq_zero.mpr hnm]
        · rw [List.count_cons_of_ne he]
          exact ih (m :: seen) x

/-- Claim C4 (amended): a pulled message id is selected for processing
exactly when it occurs in the batch and is not the (trimmed, nonempty)
emailId of any cache-eligible persisted record — a record whose company is
resolved, nonempty and not "n/a"; and each id is selected at most once per
run.  A message id recorded only in a cache-ineligible record (e.g. one
whose company is the manual-review sentinel) is NOT skipped. -/
theorem claim4_selectionIdempotence (rows : List AppRecord) (msgIds : List String)
    (x : String) :
    (x ∈ MJM_selectNewMessages rows msgIds
      ↔ x ∈ msgIds ∧ x ∉ MJM_emailIdsAlreadyInSheet rows)
    ∧ (MJM_selectNewMessages rows msgIds).count x ≤ 1 := by
  constructor
  · rw [MJM_selectNewMessages, MJM_mem_selectGo]
    simp
  · exact MJM_count_selectGo _ _ [] x

/-- Counterexample to claim C4 as stated: a persisted record whose company
is the manual-review sentinel carries messageId "m1", yet message "m1" is
selected again (not skipped), because rows with unresolved company never
enter the id cache. -/
theorem claim4_counterexample :
    ({ processedTimestamp := some 0, emailDate := some 0, platform := "Other",
       company := "N/A - Manual Review", title := "Engineer",
       status := "Applied", peakStatus := "Applied", lastUpdateDate := some 0,
       subject := "s", link := "l",
       emailId := "m1" } : AppRecord).emailId = "m1"
    ∧ MJM_selectNewMessages
        [{ processedTimestamp := some 0, emailDate := some 0, platform := "Other",
           company := "N/A - Manual Review", title := "Engineer",
           status := "Applied", peakStatus := "Applied", lastUpdateDate := some 0,
           subject := "s", link := "l", emailId := "m1" }] ["m1"]
      = ["m1"] := by
  constructor
  · rfl
  · rfl

-- ---------------------------------------------------------------------------
-- Identity resolution (MJM_main.js lines 667-675).

/-- MJM_main.js line 672: cached titles are stored trimmed (line 576) and
compared lowercased against the extracted title. -/
def MJM_titleMatches (extractedTitle : String) (e : Nat × AppRecord) : Bool :=
  MJM_toLower (MJM_trim e.2.title) == MJM_toLower extractedTitle

/-- The cache bucket consulted at MJM_main.js lines 670-671: the rows, with
their sheet row numbers (data starts at row 2), that are cache-eligible and
whose trimmed lowercased company equals the lowercased extracted company. -/
def MJM_companyMatches (rows : List AppRecord) (extractedCompany : String) :
    List (Nat × AppRecord) :=
  (rows.enum.map (fun p => (p.1 + 2, p.2))).filter
    (fun e => MJM_cacheEligible e.2
      && (MJM_toLower (MJM_trim e.2.company) == MJM_toLower extractedCompany))

/-- MJM_main.js line 673: `matches.sort((a,b) => b.rowNum - a.rowNum)[0]`,
i.e. the match with the greatest sheet row number. -/
def MJM_maxByRowNum : List (Nat × AppRecord) → Option (Nat × AppRecord)
  | [] => none
  | e :: rest =>
      match MJM_maxByRowNum rest with
      | none => some e
      | some a => if e.1 > a.1 then some e else some a

/-- MJM_main.js lines 667-675: identity resolution, returning the sheet row
number of the matched record, if any. -/
def MJM_resolveTarget (rows : List AppRecord)
    (extractedCompany extractedTitle : String) : Option Nat :=
  let ms := MJM_companyMatches rows extractedCompany
  if extractedCompany ≠ MANUAL_REVIEW_NEEDED_TEXT ∧ ms ≠ [] then
    let e1 := if extractedTitle ≠ MANUAL_REVIEW_NEEDED_TEXT
              then ms.find? (MJM_titleMatches extractedTitle)
              else none
    let e2 := match e1 with
      | some e => some e
      | none => MJM_maxByRowNum ms
    e2.map (fun e => e.1)
  else none

/-- The resolution rule in the amended claim's words: no match for an
unresolved company or an empty bucket; the first exact title match when the
title is resolved and such a match exists; otherwise the bottom-most (most
recently created) matching row. -/
def MJM_resolveTargetSpec (rows : List AppRecord)
    (extractedCompany extractedTitle : String) : Option Nat :=
  if extractedCompany = MANUAL_REVIEW_NEEDED_TEXT then none
  else
    let ms := MJM_companyMatches rows extractedCompany
    if ms = [] then none
    else if extractedTitle ≠ MANUAL_REVIEW_NEEDED_TEXT
        ∧ ms.any (MJM_titleMatches extractedTitle) = true then
      (ms.find? (MJM_titleMatches extractedTitle)).map (fun e => e.1)
    else (MJM_maxByRowNum ms).map (fun e => e.1)

/-- Claim C6 (amended): the code's identity resolution coincides with the
amended rule for every record list, company and title. -/
theorem claim6_resolveTarget (rows : List AppRecord)
    (extractedCompany extractedTitle : String) :
    MJM_resolveTarget rows extractedCompany extractedTitle
      = MJM_resolveTargetSpec rows extractedCompany extractedTitle := by
  unfold MJM_resolveTarget MJM_resolveTargetSpec
  by_cases hcomp : extractedCompany = MANUAL_REVIEW_NEEDED_TEXT
  · rw [if_pos hcomp, if_neg]
    intro hand
    exact hand.1 hcomp
  · rw [if_neg hcomp]
    by_cases hms : MJM_companyMatches rows extractedCompany = []
    · rw [if_pos hms, if_neg]
      intro hand
      exact hand.2 hms
    · rw [if_neg hms, if_pos ⟨hcomp, hms⟩]
      by_cases ht : extractedTitle = MANUAL_REVIEW_NEEDED_TEXT
      · rw [if_neg (fun hh => hh ht), if_neg]
        intro hand
        exact hand.1 ht
      · rw [if_pos ht]
        cases hf : (MJM_companyMatches rows extractedCompany).find?
            (MJM_titleMatches extractedTitle) with
        | none =>
            have hany : (MJM_companyMatches rows extractedCompany).any
                (MJM_titleMatches extractedTitle) = false := by
              rw [← Bool.not_eq_true, List.any_eq_true]
              rintro ⟨e, he, hpe⟩
              exact absurd hpe (List.find?_eq_none.mp hf e he)
            rw [if_neg (fun hand => Bool.false_ne_true (hany ▸ hand.2))]
        | some e =>
            have hany : (MJM_companyMatches rows extractedCompany).any
                (MJM_titleMatches extractedTitle) = true := by
              rw [List.any_eq_true]
              exact ⟨e, List.mem_of_find?_eq_some hf, List.find?_some hf⟩
            rw [if_pos ⟨ht, hany⟩]

/-- Counterexample to claim C6 as stated: two records share company "Acme";
the record in sheet row 2 was last updated at time 100, the one in row 3 at
time 50.  With an unresolved title the resolver picks row 3 — the most
recently created (bottom-most) row — although row 2 is the most recently
updated record for that company. -/
theorem claim6_counterexample :
    MJM_resolveTarget
        [{ processedTimestamp := some 0, emailDate := some 0, platform := "Other",
           company := "Acme", title := "Engineer", status := "Applied",
           peakStatus := "Applied", lastUpdateDate := some 100, subject := "s",
           link := "l", emailId := "a" },
         { processedTimestamp := some 0, emailDate := some 0, platform := "Other",
           company := "Acme", title := "Manager", status := "Applied",
           peakStatus := "Applied", lastUpdateDate := some 50, subject := "s",
           link := "l", emailId := "b" }] "Acme" MANUAL_REVIEW_NEEDED_TEXT
      = some 3
    ∧ MJM_companyMatches
        [{ processedTimestamp := some 0, emailDate := some 0, platform := "Other",
           company := "Acme", title := "Engineer", status := "Applied",
           peakStatus := "Applied", lastUpdateDate := some 100, subject := "s",
           link := "l", emailId := "a" },
         { processedTimestamp := some 0, emailDate := some 0, platform := "Other",
           company := "Acme", title := "Manager", status := "Applied",
           peakStatus := "Applied", lastUpdateDate := some 50, subject := "s",
           link := "l", emailId := "b" }] "Acme"
      = [(2, { processedTimestamp := some 0, emailDate := some 0, platform := "Other",
               company := "Acme", title := "Engineer", status := "Applied",
               peakStatus := "Applied", lastUpdateDate := some 100, subject := "s",
               link := "l", emailId := "a" }),
         (3, { processedTimestamp := some 0, emailDate := some 0, platform := "Other",
               company := "Acme", title := "Manager", status := "Applied",
               peakStatus := "Applied", lastUpdateDate := some 50, subject := "s",
               link := "l", emailId := "b" })]
    ∧ (50 : Int) < 100 := by
  refine ⟨rfl, rfl, by decide⟩

-- ---------------------------------------------------------------------------
-- Company/title merge on an existing record (claim C5).

/-- Case analysis of the company/title cell merge (MJM_main.js lines
691-692): an unresolved extracted value never overwrites; a stored value
equal to the extracted value up to case is kept; the sentinel, or any
case-insensitively different stored value, is overwritten. -/
theorem MJM_mergeNameCell_cases (stored extracted : String) :
    (extracted = MANUAL_REVIEW_NEEDED_TEXT
      → MJM_mergeNameCell stored extracted = stored)
    ∧ (extracted ≠ MANUAL_REVIEW_NEEDED_TEXT
      → stored ≠ MANUAL_REVIEW_NEEDED_TEXT
      → MJM_toLower stored = MJM_toLower extracted
      → MJM_mergeNameCell stored extracted = stored)
    ∧ (extracted ≠ MANUAL_REVIEW_NEEDED_TEXT
      → (stored = MANUAL_REVIEW_NEEDED_TEXT
          ∨ MJM_toLower stored ≠ MJM_toLower extracted)
      → MJM_mergeNameCell stored extracted = extracted) := by
  refine ⟨?_, ?_, ?_⟩
  · intro h
    unfold MJM_mergeNameCell
    rw [if_neg (fun hand => hand.1 h)]
  · intro hx hr heq
    unfold MJM_mergeNameCell
    rw [if_neg (fun hand => hand.2.elim hr (fun hne => hne heq))]
  · intro hx hor
    unfold MJM_mergeNameCell
    rw [if_pos ⟨hx, hor⟩]

/-- Claim C5 (amended): when an event is merged into an existing record, the
stored company (and likewise title) is overwritten by the extracted value
exactly when the extracted value is resolved and the stored value is either
the manual-review sentinel or differs from the extracted value
case-insensitively; an unresolved extracted value, or a stored value equal
to the extracted value up to case, leaves the cell unchanged. -/
theorem claim5_nameMerge (now : Int) (ev : InboundEvent) (row : AppRecord) :
    ((ev.extractedCompany = MANUAL_REVIEW_NEEDED_TEXT
        → (MJM_updateExistingRow now ev row).company = row.company)
      ∧ (ev.extractedCompany ≠ MANUAL_REVIEW_NEEDED_TEXT
        → row.company ≠ MANUAL_REVIEW_NEEDED_TEXT
        → MJM_toLower row.company = MJM_toLower ev.extractedCompany
        → (MJM_updateExistingRow now ev row).company = row.company)
      ∧ (ev.extractedCompany ≠ MANUAL_REVIEW_NEEDED_TEXT
        → (row.company = MANUAL_REVIEW_NEEDED_TEXT
            ∨ MJM_toLower row.company ≠ MJM_toLower ev.extractedCompany)
        → (MJM_updateExistingRow now ev row).company = ev.extractedCompany))
    ∧ ((ev.extractedTitle = MANUAL_REVIEW_NEEDED_TEXT
        → (MJM_updateExistingRow now ev row).title = row.title)
      ∧ (ev.extractedTitle ≠ MANUAL_REVIEW_NEEDED_TEXT
        → row.title ≠ MANUAL_REVIEW_NEEDED_TEXT
        → MJM_toLower row.title = MJM_toLower ev.extractedTitle
        → (MJM_updateExistingRow now ev row).title = row.title)
      ∧ (ev.extractedTitle ≠ MANUAL_REVIEW_NEEDED_TEXT
        → (row.title = MANUAL_REVIEW_NEEDED_TEXT
            ∨ MJM_toLower row.title ≠ MJM_toLower ev.extractedTitle)
        → (MJM_updateExistingRow now ev row).title = ev.extractedTitle)) := by
  constructor
  · rw [MJM_updateExistingRow_company]
    exact MJM_mergeNameCell_cases row.company ev.extractedCompany
  · rw [MJM_updateExistingRow_title]
    exact MJM_mergeNameCell_cases row.title ev.extractedTitle

/-- Witness for C5 (amended) at concrete inputs: a sentinel stored company is
resolved to "Acme" by a resolved extracted value, while a stored title equal
to the extracted one up to case is kept unchanged. -/
theorem claim5_nameMerge_witness :
    (MJM_updateExistingRow 0
      { messageId := "m2", emailDate := 10, subject := "s", platform := "Other",
        extractedCompany := "Acme", extractedTitle := "engineer",
        extractedStatus := "Applied" }
      { processedTimestamp := some 0, emailDate := some 0, platform := "Other",
        company := "N/A - Manual Review", title := "Engineer",
        status := "Applied", peakStatus := "Applied", lastUpdateDate := some 0,
        subject := "s0", link := "l0", emailId := "m1" }).company = "Acme"
    ∧ (MJM_updateExistingRow 0
      { messageId := "m2", emailDate := 10, subject := "s", platform := "Other",
        extractedCompany := "Acme", extractedTitle := "engineer",
        extractedStatus := "Applied" }
      { processedTimestamp := some 0, emailDate := some 0, platform := "Other",
        company := "N/A - Manual Review", title := "Engineer",
        status := "Applied", peakStatus := "Applied", lastUpdateDate := some 0,
        subject := "s0", link := "l0", emailId := "m1" }).title = "Engineer" := by
  constructor
  · exact (claim5_nameMerge 0 _ _).1.2.2 (by decide) (Or.inl rfl)
  · exact (claim5_nameMerge 0 _ _).2.2.1 (by decide) (by decide) (by decide)

/-- Counterexample to claim C5 as stated: the stored company "Acme" and the
extracted company "Globex" are both resolved (neither is the sentinel), yet
the merge replaces the stored resolved value with the different resolved
value. -/
theorem claim5_counterexample :
    ("Acme" : String) ≠ MANUAL_REVIEW_NEEDED_TEXT
    ∧ ("Globex" : String) ≠ MANUAL_REVIEW_NEEDED_TEXT
    ∧ (MJM_updateExistingRow 0
        { messageId := "m2", emailDate := 10, subject := "s", platform := "Other",
          extractedCompany := "Globex", extractedTitle := "Engineer",
          extractedStatus := "Applied" }
        { processedTimestamp := some 0, emailDate := some 0, platform := "Other",
          company := "Acme", title := "Engineer", status := "Applied",
          peakStatus := "Applied", lastUpdateDate := some 0,
          subject := "s0", link := "l0", emailId := "m1" }).company = "Globex" := by
  exact ⟨by decide, by decide, rfl⟩

-- ---------------------------------------------------------------------------
-- Deterministic status fallback (MJM_ParsingUtils, src/unnamed/part_006
-- lines 200-227).

/-- The punctuation class of the normalisation regex at line 206 of the
parsing utilities (ASCII punctuation, curly quotes and dashes), by
character code. -/
def MJM_statusPunctChars : List Char :=
  [46, 44, 33, 63, 59, 58, 40, 41, 91, 93, 123, 125, 39, 34,
   8220, 8221, 8216, 8217, 45, 8211, 8212].map Char.ofNat

/-- Line 206 of the parsing utilities: lowercase, punctuation to spaces,
whitespace runs collapsed to single spaces, trimmed. -/
def MJM_normalizeBody (s : String) : String :=
  let mapped := (MJM_toLower s).data.map
    (fun c => if c ∈ MJM_statusPunctChars then ' ' else c)
  let words := (mapped.splitOnP Char.isWhitespace).filter (fun w => !w.isEmpty)
  String.mk (List.intercalate [' '] words)

/-- JavaScript `String.prototype.includes`: substring containment. -/
def MJM_listHasInfix (needle : List Char) : List Char → Bool
  | [] => needle.isEmpty
  | c :: rest => needle.isPrefixOf (c :: rest) || MJM_listHasInfix needle rest

/-- `hay.includes(needle)` on strings. -/
def MJM_strIncludes (hay needle : String) : Bool :=
  MJM_listHasInfix needle.data hay.data

/-- MJM_Config.js line 76. -/
def MJM_REJECTION_KEYWORDS : List String :=
  ["unfortunately", "regret to inform", "not moving forward",
   "decided not to proceed", "other candidates", "filled the position",
   "thank you for your time but"]

/-- MJM_Config.js line 77. -/
def MJM_OFFER_KEYWORDS : List String :=
  ["pleased to offer", "offer of employment", "job offer",
   "formally offer you the position"]

/-- MJM_Config.js line 78. -/
def MJM_INTERVIEW_KEYWORDS : List String :=
  ["invitation to interview", "schedule an interview", "interview request",
   "like to speak with you", "next steps involve an interview",
   "interview availability"]

/-- MJM_Config.js line 79. -/
def MJM_ASSESSMENT_KEYWORDS : List String :=
  ["assessment", "coding challenge", "online test", "technical screen",
   "next step is a skill assessment", "take a short test"]

/-- MJM_Config.js line 80. -/
def MJM_APP_VIEWED_KEYWORDS : List String :=
  ["application was viewed", "your application was viewed by",
   "recruiter viewed your application", "company viewed your application",
   "viewed your profile for the role"]

/-- Lines 200-227 of the parsing utilities: the deterministic status
fallback.  A missing or sub-10-character body short-circuits to null before
any keyword scan (lines 201-204). -/
def MJM_parseBodyForStatus (plainBody : String) : Option String :=
  if plainBody = "" ∨ plainBody.length < 10 then none
  else
    let bodyLower := MJM_normalizeBody plainBody
    if MJM_OFFER_KEYWORDS.any (fun k => MJM_strIncludes bodyLower k) then
      some MJM_APP_OFFER_STATUS
    else if MJM_INTERVIEW_KEYWORDS.any (fun k => MJM_strIncludes bodyLower k) then
      some MJM_APP_INTERVIEW_STATUS
    else if MJM_ASSESSMENT_KEYWORDS.any (fun k => MJM_strIncludes bodyLower k) then
      some MJM_APP_ASSESSMENT_STATUS
    else if MJM_APP_VIEWED_KEYWORDS.any (fun k => MJM_strIncludes bodyLower k) then
      some MJM_APP_VIEWED_STATUS
    else if MJM_REJECTION_KEYWORDS.any (fun k => MJM_strIncludes bodyLower k) then
      some MJM_APP_REJECTED_STATUS
    else none

/-- The five keyword sets in the claim's fixed scan order, each paired with
the status it yields. -/
def MJM_statusKeywordTable : List (List String × String) :=
  [(MJM_OFFER_KEYWORDS, MJM_APP_OFFER_STATUS),
   (MJM_INTERVIEW_KEYWORDS, MJM_APP_INTERVIEW_STATUS),
   (MJM_ASSESSMENT_KEYWORDS, MJM_APP_ASSESSMENT_STATUS),
   (MJM_APP_VIEWED_KEYWORDS, MJM_APP_VIEWED_STATUS),
   (MJM_REJECTION_KEYWORDS, MJM_APP_REJECTED_STATUS)]

/-- The scan rule in the claim's words: the status of the first keyword set
with a keyword contained in the normalised body, none if no set matches. -/
def MJM_statusScanSpec (bodyLower : String) : Option String :=
  (MJM_statusKeywordTable.find?
    (fun p => p.1.any (fun k => MJM_strIncludes bodyLower k))).map
    (fun p => p.2)

/-- Claim C8 (amended): for every body of at least 10 characters the status
fallback returns exactly the first-match scan of the five keyword sets over
the normalised body (offer, interview, assessment, viewed, rejection — none
when no keyword matches); an empty or sub-10-character body returns null
without scanning. -/
theorem claim8_parseBodyForStatus (plainBody : String) :
    MJM_parseBodyForStatus plainBody
      = if plainBody = "" ∨ plainBody.length < 10 then none
        else MJM_statusScanSpec (MJM_normalizeBody plainBody) := by
  by_cases hg : plainBody = "" ∨ plainBody.length < 10
  · simp only [MJM_parseBodyForStatus, if_pos hg]
  · simp only [MJM_parseBodyForStatus, if_neg hg]
    unfold MJM_statusScanSpec MJM_statusKeywordTable
    cases h1 : MJM_OFFER_KEYWORDS.any
        (fun k => MJM_strIncludes (MJM_normalizeBody plainBody) k) with
    | true => simp [List.find?_cons, h1]
    | false =>
        cases h2 : MJM_INTERVIEW_KEYWORDS.any
            (fun k => MJM_strIncludes (MJM_normalizeBody plainBody) k) with
        | true => simp [List.find?_cons, h1, h2]
        | false =>
            cases h3 : MJM_ASSESSMENT_KEYWORDS.any
                (fun k => MJM_strIncludes (MJM_normalizeBody plainBody) k) with
            | true => simp [List.find?_cons, h1, h2, h3]
            | false =>
                cases h4 : MJM_APP_VIEWED_KEYWORDS.any
                    (fun k => MJM_strIncludes (MJM_normalizeBody plainBody) k) with
                | true => simp [List.find?_cons, h1, h2, h3, h4]
                | false =>
                    cases h5 : MJM_REJECTION_KEYWORDS.any
                        (fun k => MJM_strIncludes (MJM_normalizeBody plainBody) k) with
                    | true => simp [List.find?_cons, h1, h2, h3, h4, h5]
                    | false => simp [List.find?_cons, h1, h2, h3, h4, h5]

/-- Counterexample to claim C8 as stated: the 9-character body "job offer"
contains an offer keyword, so the claimed scan yields "Offer Received", yet
the fallback returns null because of the length guard. -/
theorem claim8_counterexample :
    MJM_parseBodyForStatus "job offer" = none
    ∧ MJM_statusScanSpec (MJM_normalizeBody "job offer")
        = some MJM_APP_OFFER_STATUS := by
  exact ⟨rfl, rfl⟩
